import Mathlib

/-!
Verification of the GEMM accelerator repository: the software oracle
(reference matrix multiply and result comparison) and the memory-mapped
accelerator driver (register file, state machine, polling).

Machine integers are modelled as `Nat`/`Int` with explicit reduction
mod 2^32 where the C code's 32-bit arithmetic can wrap.  Register files
are explicit records; hardware-updated status reads are modelled as a
stream of observed values, and unbounded polling loops take fuel and
return `Option` (with `none` for divergence).
-/

/-- Reduce an integer to the 32-bit signed two's-complement range,
matching C `int32_t` wraparound on accumulation. -/
def int32ofInt (x : Int) : Int :=
  (x + 2147483648) % 4294967296 - 2147483648

/-- The inner accumulation loop of `matrix_multiply_int8` /
`matrix_multiply_int16`: `sum += (int32_t)A[m*stride_a+k] * (int32_t)B[k*stride_b+n]`
for `k` from `0` to `K-1`, with the running sum held in a 32-bit signed
accumulator. -/
def gemmSum (A B : Nat → Int) (stride_a stride_b m n : Nat) : Nat → Int
  | 0 => 0
  | k + 1 =>
      int32ofInt (gemmSum A B stride_a stride_b m n k
        + A (m * stride_a + k) * B (k * stride_b + n))

/-- Store `v` at index `i` of the output array `C` (a single C array
assignment `C[i] = v`). -/
def writeAt (C : Nat → Int) (i : Nat) (v : Int) : Nat → Int :=
  fun j => if j = i then v else C j

/-- Embedding of `matrix_multiply_int8` from
`src/testbench/software_oracle/software_oracle.c`: two nested loops over
`m < M` and `n < N`, each storing the 32-bit accumulated dot product at
`C[m*stride_c + n]`. -/
def matrix_multiply_int8 (A B C : Nat → Int)
    (M K N stride_a stride_b stride_c : Nat) : Nat → Int :=
  (List.range M).foldl
    (fun Cm m =>
      (List.range N).foldl
        (fun Cn n => writeAt Cn (m * stride_c + n)
          (gemmSum A B stride_a stride_b m n K)) Cm)
    C

/-- Embedding of `matrix_multiply_int16`, textually the same algorithm as
`matrix_multiply_int8` over 16-bit elements. -/
def matrix_multiply_int16 (A B C : Nat → Int)
    (M K N stride_a stride_b stride_c : Nat) : Nat → Int :=
  (List.range M).foldl
    (fun Cm m =>
      (List.range N).foldl
        (fun Cn n => writeAt Cn (m * stride_c + n)
          (gemmSum A B stride_a stride_b m n K)) Cm)
    C

/-- Embedding of `compare_results`: walks `i` from `0` to `M*N - 1` and
increments an error counter whenever `C_hw[i] != C_ref[i]`. -/
def compare_results (C_hw C_ref : Nat → Int) (M N : Nat) : Nat :=
  (List.range (M * N)).foldl
    (fun errors i => if C_hw i ≠ C_ref i then errors + 1 else errors) 0

/-- The eight test cases of the oracle `main`, as `(M, K, N, data_type)`
with `data_type` 0 for int8 and 1 for int16. -/
def test_cases : List (Nat × Nat × Nat × Nat) :=
  [(8, 8, 8, 0), (16, 16, 16, 0), (32, 32, 32, 0),
   (8, 8, 8, 1), (16, 16, 16, 1), (32, 32, 32, 1),
   (64, 64, 64, 0), (128, 128, 128, 0)]

/-- One iteration of the oracle `main` loop for test case `t` with
dimensions `tc`: the reference output is computed by the matching
`matrix_multiply` variant with strides `K, N, N`, the hardware buffer is
zeroed (`memset`) since the accelerator interface is a placeholder, and
the two are compared. `A t` / `B t` are the matrices the random generator
produced for this case. -/
def case_errors (A B : Nat → Nat → Int) (t : Nat) (tc : Nat × Nat × Nat × Nat) : Nat :=
  let M := tc.1
  let K := tc.2.1
  let N := tc.2.2.1
  let d := tc.2.2.2
  let C_ref :=
    if d = 0 then
      matrix_multiply_int8 (A t) (B t) (fun _ => 0) M K N K N N
    else
      matrix_multiply_int16 (A t) (B t) (fun _ => 0) M K N K N N
  compare_results (fun _ => 0) C_ref M N

/-- Embedding of the oracle `main`: runs every test case, accumulating
`total_errors`, and returns the total (the process exit value). -/
def oracle_main (A B : Nat → Nat → Int) : Nat :=
  (test_cases.enum).foldl
    (fun total_errors p => total_errors + case_errors A B p.1 p.2) 0

/-! Driver constants from `src/software/driver/gemm_accel_driver.h`. -/

/-- Control register START bit (bit 0). -/
def GEMM_CTRL_START : Nat := 1

/-- Control register RESET bit (bit 1). -/
def GEMM_CTRL_RESET : Nat := 2

/-- Control register IRQ enable bit (bit 2). -/
def GEMM_CTRL_IRQ_EN : Nat := 4

/-- Status register BUSY bit (bit 0). -/
def GEMM_STATUS_BUSY : Nat := 1

/-- Status register DONE bit (bit 1). -/
def GEMM_STATUS_DONE : Nat := 2

/-- Status register ERROR bit (bit 2). -/
def GEMM_STATUS_ERROR : Nat := 4

/-- Data type code for 8-bit elements. -/
def GEMM_DATA_TYPE_INT8 : Nat := 0

/-- Data type code for 16-bit elements. -/
def GEMM_DATA_TYPE_INT16 : Nat := 1

/-- Names of the twelve memory-mapped registers of the accelerator. -/
inductive RegName where
  | ctrl | statusReg | matrixA | matrixB | matrixC
  | mDim | kDim | nDim | dataType
  | strideA | strideB | strideC
  deriving DecidableEq

/-- The hardware register block, one 32-bit field per register. -/
structure RegFile where
  ctrl : Nat
  statusReg : Nat
  matrixA : Nat
  matrixB : Nat
  matrixC : Nat
  mDim : Nat
  kDim : Nat
  nDim : Nat
  dataType : Nat
  strideA : Nat
  strideB : Nat
  strideC : Nat
  deriving DecidableEq

/-- A single `REG_WRITE` of value `v` to register `r`. -/
def writeReg (f : RegFile) (r : RegName) (v : Nat) : RegFile :=
  match r with
  | RegName.ctrl => { f with ctrl := v }
  | RegName.statusReg => { f with statusReg := v }
  | RegName.matrixA => { f with matrixA := v }
  | RegName.matrixB => { f with matrixB := v }
  | RegName.matrixC => { f with matrixC := v }
  | RegName.mDim => { f with mDim := v }
  | RegName.kDim => { f with kDim := v }
  | RegName.nDim => { f with nDim := v }
  | RegName.dataType => { f with dataType := v }
  | RegName.strideA => { f with strideA := v }
  | RegName.strideB => { f with strideB := v }
  | RegName.strideC => { f with strideC := v }

/-- Apply a list of register writes in order. -/
def applyWrites (f : RegFile) (ws : List (RegName × Nat)) : RegFile :=
  ws.foldl (fun g w => writeReg g w.1 w.2) f

/-- The `gemm_config_t` structure passed to `gemm_accel_start`. -/
structure gemm_config_t where
  matrix_a_addr : Nat
  matrix_b_addr : Nat
  matrix_c_addr : Nat
  m_dim : Nat
  k_dim : Nat
  n_dim : Nat
  data_type : Nat
  stride_a : Nat
  stride_b : Nat
  stride_c : Nat
  deriving DecidableEq

/-- The driver's mutable state: the `driver_initialized` flag, the saved
`cycle_count_start`, the static counter inside
`gemm_accel_get_cycle_count`, and a snapshot of the register block. -/
structure DriverState where
  initialized : Bool
  cycleStart : Nat
  cycleCtr : Nat
  regs : RegFile
  deriving DecidableEq

/-- Embedding of `gemm_accel_get_cycle_count`: the placeholder advances a
static 32-bit counter by 100 and returns it; the result pairs the
returned sample with the new counter value. -/
def gemm_accel_get_cycle_count (c : Nat) : Nat × Nat :=
  ((c + 100) % 4294967296, (c + 100) % 4294967296)

/-- Embedding of `gemm_accel_start` from
`src/software/driver/gemm_accel_driver.c`.  The `Option gemm_config_t`
argument models the possibly-NULL pointer.  The result is the C return
value, the post-call driver state, and the ordered log of every
`REG_WRITE` the call performed. -/
def gemm_accel_start (config : Option gemm_config_t) (st : DriverState) :
    Int × DriverState × List (RegName × Nat) :=
  if st.initialized = false then (-1, st, [])
  else
    match config with
    | none => (-1, st, [])
    | some cfg =>
      if st.regs.statusReg &&& GEMM_STATUS_BUSY ≠ 0 then (-1, st, [])
      else if cfg.m_dim = 0 ∨ cfg.k_dim = 0 ∨ cfg.n_dim = 0 then (-1, st, [])
      else if cfg.data_type > GEMM_DATA_TYPE_INT16 then (-1, st, [])
      else
        let ws : List (RegName × Nat) :=
          [(RegName.matrixA, cfg.matrix_a_addr),
           (RegName.matrixB, cfg.matrix_b_addr),
           (RegName.matrixC, cfg.matrix_c_addr),
           (RegName.mDim, cfg.m_dim),
           (RegName.kDim, cfg.k_dim),
           (RegName.nDim, cfg.n_dim),
           (RegName.dataType, cfg.data_type),
           (RegName.strideA, cfg.stride_a),
           (RegName.strideB, cfg.stride_b),
           (RegName.strideC, cfg.stride_c),
           (RegName.ctrl, GEMM_CTRL_START)]
        let sample := gemm_accel_get_cycle_count st.cycleCtr
        (0,
         { st with regs := applyWrites st.regs ws,
                   cycleStart := sample.1,
                   cycleCtr := sample.2 },
         ws)

/-- The `while (gemm_accel_is_busy())` polling loop: `statusSeq t` is the
value the `t`-th status-register read observes.  Starting at read index
`i` with the given fuel, returns the index of the first read whose BUSY
bit is clear, or `none` if the fuel runs out (the C loop spins forever). -/
def pollBusy (statusSeq : Nat → Nat) : Nat → Nat → Option Nat
  | 0, _ => none
  | fuel + 1, i =>
      if statusSeq i &&& GEMM_STATUS_BUSY ≠ 0 then pollBusy statusSeq fuel (i + 1)
      else some i

/-- Embedding of `gemm_accel_wait`.  On success the middle component
carries the `total_cycles` value the function computes and reports
(`cycle_count_end - cycle_count_start` in 32-bit unsigned arithmetic);
`none` overall models the loop never observing BUSY clear. -/
def gemm_accel_wait (statusSeq : Nat → Nat) (fuel : Nat) (st : DriverState) :
    Option (Int × Option Nat × DriverState) :=
  if st.initialized = false then some (-1, none, st)
  else
    match pollBusy statusSeq fuel 0 with
    | none => none
    | some i =>
      if statusSeq (i + 1) &&& GEMM_STATUS_ERROR ≠ 0 then some (-1, none, st)
      else
        let sample := gemm_accel_get_cycle_count st.cycleCtr
        let total_cycles :=
          (sample.1 + (4294967296 - st.cycleStart % 4294967296)) % 4294967296
        some (0, some total_cycles, { st with cycleCtr := sample.2 })

/-- Embedding of `gemm_accel_status`: one status read mapped to
error/done/busy/idle codes, or -1 without touching the hardware when the
driver is uninitialized. -/
def gemm_accel_status (st : DriverState) : Int :=
  if st.initialized = false then -1
  else
    let status := st.regs.statusReg
    if status &&& GEMM_STATUS_ERROR ≠ 0 then -1
    else if status &&& GEMM_STATUS_DONE ≠ 0 then 1
    else if status &&& GEMM_STATUS_BUSY ≠ 0 then 0
    else 2

/-- Embedding of `gemm_accel_reset`: writes RESET to the control register
and polls until BUSY clears.  `t` is the read cursor into `statusSeq`;
the result carries the new cursor, the new state, and the write log. -/
def gemm_accel_reset (statusSeq : Nat → Nat) (fuel : Nat) (t : Nat) (st : DriverState) :
    Option (Nat × DriverState × List (RegName × Nat)) :=
  let st1 := { st with regs := writeReg st.regs RegName.ctrl GEMM_CTRL_RESET }
  match pollBusy statusSeq fuel t with
  | none => none
  | some j => some (j + 1, st1, [(RegName.ctrl, GEMM_CTRL_RESET)])

/-- Embedding of `gemm_accel_init`: a no-op success when already
initialized; otherwise reset, poll until not busy, and set the
initialized flag.  The result is the C return value, the new read
cursor, the new state, and the write log. -/
def gemm_accel_init (statusSeq : Nat → Nat) (fuel : Nat) (t : Nat) (st : DriverState) :
    Option (Int × Nat × DriverState × List (RegName × Nat)) :=
  if st.initialized then some (0, t, st, [])
  else
    match gemm_accel_reset statusSeq fuel t st with
    | none => none
    | some (t1, st1, w1) =>
      match pollBusy statusSeq fuel t1 with
      | none => none
      | some j => some (0, j + 1, { st1 with initialized := true }, w1)

/-- Embedding of `gemm_accel_set_interrupt_enable`: read the control
register, set or clear the IRQ_EN bit (`ctrl |= 4` or
`ctrl &= ~4` in 32-bit unsigned arithmetic), and write it back. -/
def gemm_accel_set_interrupt_enable (enable : Bool) (st : DriverState) : DriverState :=
  let ctrl := st.regs.ctrl
  let ctrl2 := if enable then ctrl ||| GEMM_CTRL_IRQ_EN
               else ctrl &&& (4294967295 - GEMM_CTRL_IRQ_EN)
  { st with regs := { st.regs with ctrl := ctrl2 } }

/-- The `(M, K, N, data_type)` quadruple of test case `t` of the oracle
`main` (out-of-range indices yield a degenerate empty case). -/
def case_dims (t : Nat) : Nat × Nat × Nat × Nat :=
  test_cases.getD t (0, 0, 0, 0)

/-- The reference output matrix the oracle `main` computes for test case
`t`: the matching `matrix_multiply` variant applied to the generated
matrices with strides `K, N, N`. -/
def case_ref (A B : Nat → Nat → Int) (t : Nat) : Nat → Int :=
  let tc := case_dims t
  if tc.2.2.2 = 0 then
    matrix_multiply_int8 (A t) (B t) (fun _ => 0) tc.1 tc.2.1 tc.2.2.1 tc.2.1 tc.2.2.1 tc.2.2.1
  else
    matrix_multiply_int16 (A t) (B t) (fun _ => 0) tc.1 tc.2.1 tc.2.2.1 tc.2.1 tc.2.2.1 tc.2.2.1

/-- The number of output indices of test case `t` at which the zeroed
hardware buffer differs from the reference output. -/
def case_mismatches (A B : Nat → Nat → Int) (t : Nat) : Nat :=
  ((Finset.range ((case_dims t).1 * (case_dims t).2.2.1)).filter
    (fun i => (0 : Int) ≠ case_ref A B t i)).card

/-- Concrete first input matrix used to separate the aliasing-stride
behaviour of the reference model from the claimed postcondition. -/
def cexA : Nat → Int := fun i => if i = 0 then 1 else if i = 1 then 2 else 0

/-- Concrete second input matrix for the aliasing-stride counterexample. -/
def cexB : Nat → Int := fun _ => 1

/-- A register file with every register zero. -/
def rf0 : RegFile := ⟨0, 0, 0, 0, 0, 0, 0, 0, 0, 0, 0, 0⟩

/-- An initialized, idle driver state over a zeroed register block. -/
def stIdle : DriverState := ⟨true, 0, 0, rf0⟩

/-- An uninitialized driver state over a zeroed register block. -/
def stUninit : DriverState := ⟨false, 0, 0, rf0⟩

/-- The 8x8x8 int8 configuration of `gemm_example`. -/
def cfg8 : gemm_config_t := ⟨2147483648, 2147487744, 2147491840, 8, 8, 8, 0, 8, 8, 8⟩

/-- The `gemm_example` configuration with `k_dim` zeroed out. -/
def cfgK0 : gemm_config_t := ⟨2147483648, 2147487744, 2147491840, 8, 0, 8, 0, 8, 8, 8⟩

/-- The register file after programming `cfg8` and issuing START. -/
def rf1 : RegFile := ⟨1, 0, 2147483648, 2147487744, 2147491840, 8, 8, 8, 0, 8, 8, 8⟩

/-- The driver state after a successful `gemm_accel_start` of `cfg8`
from `stIdle`. -/
def st1c : DriverState := ⟨true, 100, 100, rf1⟩

/-- The write log of a successful `gemm_accel_start` of `cfg8`. -/
def log8 : List (RegName × Nat) :=
  [(RegName.matrixA, 2147483648), (RegName.matrixB, 2147487744),
   (RegName.matrixC, 2147491840), (RegName.mDim, 8), (RegName.kDim, 8),
   (RegName.nDim, 8), (RegName.dataType, 0), (RegName.strideA, 8),
   (RegName.strideB, 8), (RegName.strideC, 8), (RegName.ctrl, 1)]

/-- A status-read stream that always observes an all-clear status. -/
def seq0 : Nat → Nat := fun _ => 0

/-- One row of the `matrix_multiply` nested loops: the inner loop over
`n < N` writing row `m` of the output. -/
def mmRow (A B : Nat → Int) (K N sa sb sc m : Nat) (C : Nat → Int) : Nat → Int :=
  (List.range N).foldl
    (fun Cn n => writeAt Cn (m * sc + n) (gemmSum A B sa sb m n K)) C

lemma int32ofInt_add_left (x y : Int) :
    int32ofInt (int32ofInt x + y) = int32ofInt (x + y) := by
  unfold int32ofInt
  omega

lemma gemmSum_eq (A B : Nat → Int) (sa sb m n : Nat) : ∀ K : Nat,
    gemmSum A B sa sb m n K =
      int32ofInt (∑ k in Finset.range K, A (m * sa + k) * B (k * sb + n)) := by
  intro K
  induction K with
  | zero =>
      simp [gemmSum, int32ofInt]
  | succ K ih =>
      rw [gemmSum, ih, int32ofInt_add_left, Finset.sum_range_succ]

lemma mmRow_succ (A B : Nat → Int) (K N sa sb sc m : Nat) (C : Nat → Int) :
    mmRow A B K (N + 1) sa sb sc m C =
      writeAt (mmRow A B K N sa sb sc m C) (m * sc + N)
        (gemmSum A B sa sb m N K) := by
  unfold mmRow
  rw [List.range_succ, List.foldl_append]
  rfl

lemma mmRow_untouched (A B : Nat → Int) (K sa sb sc m j : Nat) :
    ∀ (N : Nat) (C : Nat → Int), (∀ n < N, m * sc + n ≠ j) →
      mmRow A B K N sa sb sc m C j = C j := by
  intro N
  induction N with
  | zero => intro C _; rfl
  | succ N ih =>
      intro C h
      rw [congrFun (mmRow_succ A B K N sa sb sc m C) j]
      unfold writeAt
      rw [if_neg (fun hj => h N (Nat.lt_succ_self N) hj.symm)]
      exact ih C (fun n hn => h n (Nat.lt_succ_of_lt hn))

lemma mmRow_hit (A B : Nat → Int) (K sa sb sc m n0 : Nat) :
    ∀ (N : Nat) (C : Nat → Int), n0 < N →
      mmRow A B K N sa sb sc m C (m * sc + n0) = gemmSum A B sa sb m n0 K := by
  intro N
  induction N with
  | zero => intro C h; exact absurd h (Nat.not_lt_zero n0)
  | succ N ih =>
      intro C h
      rw [congrFun (mmRow_succ A B K N sa sb sc m C) (m * sc + n0)]
      by_cases hn : n0 = N
      · subst hn
        unfold writeAt
        rw [if_pos rfl]
      · have hn0 : n0 < N := Nat.lt_of_le_of_ne (Nat.lt_succ_iff.mp h) hn
        unfold writeAt
        rw [if_neg (by omega)]
        exact ih C hn0

lemma matrix_multiply_int8_succ (A B C : Nat → Int) (M K N sa sb sc : Nat) :
    matrix_multiply_int8 A B C (M + 1) K N sa sb sc =
      mmRow A B K N sa sb sc M (matrix_multiply_int8 A B C M K N sa sb sc) := by
  unfold matrix_multiply_int8 mmRow
  rw [List.range_succ, List.foldl_append]
  rfl

lemma matrix_multiply_final (A B : Nat → Int) (K sa sb sc m0 n0 : Nat) :
    ∀ (M : Nat) (C : Nat → Int) (N : Nat), m0 < M → n0 < N → (N ≤ sc ∨ M ≤ 1) →
      matrix_multiply_int8 A B C M K N sa sb sc (m0 * sc + n0) =
        gemmSum A B sa sb m0 n0 K := by
  intro M
  induction M with
  | zero => intro C N hm _ _; exact absurd hm (Nat.not_lt_zero m0)
  | succ M ih =>
      intro C N hm hn hinj
      rw [congrFun (matrix_multiply_int8_succ A B C M K N sa sb sc) (m0 * sc + n0)]
      by_cases hM : m0 = M
      · subst hM
        exact mmRow_hit A B K sa sb sc m0 n0 N _ hn
      · have hm0 : m0 < M := Nat.lt_of_le_of_ne (Nat.lt_succ_iff.mp hm) hM
        have hsc : N ≤ sc := by
          rcases hinj with h | h
          · exact h
          · omega
        rw [mmRow_untouched A B K sa sb sc M (m0 * sc + n0) N _ ?untouched]
        case untouched =>
          intro n hnN
          have h1 : m0 * sc + n0 < (m0 + 1) * sc := by
            have hn0sc : n0 < sc := Nat.lt_of_lt_of_le hn hsc
            calc m0 * sc + n0 < m0 * sc + sc := by omega
              _ = (m0 + 1) * sc := by ring
          have h2 : (m0 + 1) * sc ≤ M * sc :=
            Nat.mul_le_mul_right sc hm0
          omega
        exact ih C N hm0 hn (Or.inl hsc)

/-- C1 counterexample: with M=2, K=1, N=1, stride_c=0, A=[1;2], B=[1],
the second row's write overwrites the first, so the final value at
`C[0*stride_c+0]` is 2, not the claimed dot product 1 of row 0.  The
claim's universal quantification over "all strides" therefore fails. -/
theorem matrix_multiply_all_strides_counterexample :
    ¬ (matrix_multiply_int8 cexA cexB (fun _ => 0) 2 1 1 1 1 0 (0 * 0 + 0) =
       int32ofInt (∑ k in Finset.range 1, cexA (0 * 1 + k) * cexB (k * 1 + 0))) := by
  decide

/-- C1 (amended): for all dimensions, strides and integer matrices, as
long as the output index map is injective (stride_c ≥ N, or M ≤ 1 so
only one row is written), both reference models store at
`C[m*stride_c+n]` the sum over `k < K` of `A[m*stride_a+k] *
B[k*stride_b+n]` reduced to 32-bit signed two's-complement, with no
rounding and no saturation; the row pitch is always the stride
argument, never the dimension. -/
theorem matrix_multiply_correct (A B C : Nat → Int) (M K N sa sb sc m n : Nat)
    (hm : m < M) (hn : n < N) (hinj : N ≤ sc ∨ M ≤ 1) :
    matrix_multiply_int8 A B C M K N sa sb sc (m * sc + n) =
      int32ofInt (∑ k in Finset.range K, A (m * sa + k) * B (k * sb + n)) ∧
    matrix_multiply_int16 A B C M K N sa sb sc (m * sc + n) =
      int32ofInt (∑ k in Finset.range K, A (m * sa + k) * B (k * sb + n)) := by
  have h8 : matrix_multiply_int8 A B C M K N sa sb sc (m * sc + n) =
      int32ofInt (∑ k in Finset.range K, A (m * sa + k) * B (k * sb + n)) :=
    (matrix_multiply_final A B K sa sb sc m n M C N hm hn hinj).trans
      (gemmSum_eq A B sa sb m n K)
  exact ⟨h8, h8⟩

/-- Witness for the amended C1 at a concrete input: the 1×1×1 boundary
case with all strides 1 on the matrices A=[1], B=[1]. -/
theorem matrix_multiply_correct_witness :
    matrix_multiply_int8 cexA cexB (fun _ => 0) 1 1 1 1 1 1 (0 * 1 + 0) =
      int32ofInt (∑ k in Finset.range 1, cexA (0 * 1 + k) * cexB (k * 1 + 0)) ∧
    matrix_multiply_int16 cexA cexB (fun _ => 0) 1 1 1 1 1 1 (0 * 1 + 0) =
      int32ofInt (∑ k in Finset.range 1, cexA (0 * 1 + k) * cexB (k * 1 + 0)) :=
  matrix_multiply_correct cexA cexB (fun _ => 0) 1 1 1 1 1 1 0 0
    (by decide) (by decide) (Or.inl (by decide))

lemma foldl_count (p : Nat → Prop) [DecidablePred p] :
    ∀ (L a : Nat), (List.range L).foldl (fun e i => if p i then e + 1 else e) a =
      a + ∑ i in Finset.range L, if p i then 1 else 0 := by
  intro L
  induction L with
  | zero => intro a; simp
  | succ L ih =>
      intro a
      rw [List.range_succ, List.foldl_append, Finset.sum_range_succ]
      simp only [List.foldl_cons, List.foldl_nil]
      rw [ih]
      by_cases h : p L <;> simp only [h, if_true, if_false] <;> omega

lemma compare_results_card (C_hw C_ref : Nat → Int) (M N : Nat) :
    compare_results C_hw C_ref M N =
      ((Finset.range (M * N)).filter (fun i => C_hw i ≠ C_ref i)).card := by
  unfold compare_results
  rw [foldl_count (fun i => C_hw i ≠ C_ref i) (M * N) 0, Finset.card_filter]
  simp

lemma case_errors_eq (A B : Nat → Nat → Int) (t : Nat) :
    case_errors A B t (case_dims t) = case_mismatches A B t := by
  unfold case_errors case_mismatches case_ref
  by_cases h : (case_dims t).2.2.2 = 0
  · simp only [h, ite_true]
    rw [compare_results_card]
  · simp only [h, ite_false]
    rw [compare_results_card]

lemma oracle_main_sum (A B : Nat → Nat → Int) :
    oracle_main A B = ∑ t in Finset.range 8, case_mismatches A B t := by
  have e0 : case_errors A B 0 (8, 8, 8, 0) = case_mismatches A B 0 := case_errors_eq A B 0
  have e1 : case_errors A B 1 (16, 16, 16, 0) = case_mismatches A B 1 := case_errors_eq A B 1
  have e2 : case_errors A B 2 (32, 32, 32, 0) = case_mismatches A B 2 := case_errors_eq A B 2
  have e3 : case_errors A B 3 (8, 8, 8, 1) = case_mismatches A B 3 := case_errors_eq A B 3
  have e4 : case_errors A B 4 (16, 16, 16, 1) = case_mismatches A B 4 := case_errors_eq A B 4
  have e5 : case_errors A B 5 (32, 32, 32, 1) = case_mismatches A B 5 := case_errors_eq A B 5
  have e6 : case_errors A B 6 (64, 64, 64, 0) = case_mismatches A B 6 := case_errors_eq A B 6
  have e7 : case_errors A B 7 (128, 128, 128, 0) = case_mismatches A B 7 := case_errors_eq A B 7
  unfold oracle_main test_cases
  simp only [List.enum, List.enumFrom, List.foldl_cons, List.foldl_nil]
  rw [Finset.sum_range_succ, Finset.sum_range_succ, Finset.sum_range_succ,
    Finset.sum_range_succ, Finset.sum_range_succ, Finset.sum_range_succ,
    Finset.sum_range_succ, Finset.sum_range_succ, Finset.sum_range_zero]
  rw [e0, e1, e2, e3, e4, e5, e6, e7]

/-- C6: `compare_results` returns exactly the number of indices in
`[0, M*N)` at which the two output buffers differ, the oracle `main`
accumulates the per-case mismatch counts of the eight test cases into
its returned total, and that total is nonzero exactly when some case
has a mismatching index. -/
theorem compare_results_main_spec (A B : Nat → Nat → Int)
    (C_hw C_ref : Nat → Int) (M N : Nat) :
    compare_results C_hw C_ref M N =
      ((Finset.range (M * N)).filter (fun i => C_hw i ≠ C_ref i)).card ∧
    oracle_main A B = ∑ t in Finset.range 8, case_mismatches A B t ∧
    (oracle_main A B ≠ 0 ↔ ∃ t ∈ Finset.range 8, case_mismatches A B t ≠ 0) := by
  refine ⟨compare_results_card C_hw C_ref M N, oracle_main_sum A B, ?_⟩
  rw [oracle_main_sum A B, Ne, Finset.sum_eq_zero_iff]
  push_neg
  exact Iff.rfl

/-- C2: `gemm_accel_start` fails with -1, performs no register write at
all, and leaves the driver state (register snapshot included) exactly
as before, whenever a dimension is zero, the data type is not Int8 or
Int16, the driver is uninitialized, or the hardware BUSY bit is set. -/
theorem gemm_accel_start_validation (st : DriverState) (cfg : gemm_config_t)
    (h : st.initialized = false ∨ cfg.m_dim = 0 ∨ cfg.k_dim = 0 ∨ cfg.n_dim = 0 ∨
      GEMM_DATA_TYPE_INT16 < cfg.data_type ∨
      st.regs.statusReg &&& GEMM_STATUS_BUSY ≠ 0) :
    gemm_accel_start (some cfg) st = (-1, st, []) := by
  simp only [gemm_accel_start]
  split_ifs with h1 h2 h3 h4 <;> try rfl
  exfalso
  rcases h with h | h | h | h | h | h
  · exact h1 h
  · exact h3 (Or.inl h)
  · exact h3 (Or.inr (Or.inl h))
  · exact h3 (Or.inr (Or.inr h))
  · exact h4 h
  · exact h2 h

/-- Witness for C2: the spec's error scenario, a `k_dim = 0` config
rejected from an initialized idle state with the register file intact. -/
theorem gemm_accel_start_validation_witness :
    gemm_accel_start (some cfgK0) stIdle = (-1, stIdle, []) :=
  gemm_accel_start_validation stIdle cfgK0
    (Or.inr (Or.inr (Or.inl rfl)))

/-- C9: a NULL configuration pointer is rejected with -1 before the busy
check and any validation, with no register write; the theorem holds for
every initialized driver state, hence for every busy-bit and register
content. -/
theorem gemm_accel_start_null_rejected (st : DriverState)
    (h : st.initialized = true) :
    gemm_accel_start none st = (-1, st, []) := by
  simp only [gemm_accel_start, h]
  rfl

/-- Witness for C9: NULL rejection from an initialized state whose BUSY
bit is clear, showing the failure is decided before the busy check. -/
theorem gemm_accel_start_null_rejected_witness :
    gemm_accel_start none stIdle = (-1, stIdle, []) :=
  gemm_accel_start_null_rejected stIdle rfl

/-- C4: on a valid configuration from an initialized non-busy state,
`gemm_accel_start` writes exactly the ten configuration registers in
order followed by the START bit to the control register, samples the
start cycle count into `cycle_count_start`, leaves the status register
untouched, and returns 0. -/
theorem gemm_accel_start_success (st : DriverState) (cfg : gemm_config_t)
    (hinit : st.initialized = true)
    (hbusy : st.regs.statusReg &&& GEMM_STATUS_BUSY = 0)
    (hm : cfg.m_dim ≠ 0) (hk : cfg.k_dim ≠ 0) (hn : cfg.n_dim ≠ 0)
    (hd : cfg.data_type ≤ GEMM_DATA_TYPE_INT16) :
    gemm_accel_start (some cfg) st =
      (0,
       { initialized := st.initialized,
         cycleStart := (st.cycleCtr + 100) % 4294967296,
         cycleCtr := (st.cycleCtr + 100) % 4294967296,
         regs := { ctrl := GEMM_CTRL_START,
                   statusReg := st.regs.statusReg,
                   matrixA := cfg.matrix_a_addr,
                   matrixB := cfg.matrix_b_addr,
                   matrixC := cfg.matrix_c_addr,
                   mDim := cfg.m_dim,
                   kDim := cfg.k_dim,
                   nDim := cfg.n_dim,
                   dataType := cfg.data_type,
                   strideA := cfg.stride_a,
                   strideB := cfg.stride_b,
                   strideC := cfg.stride_c } },
       [(RegName.matrixA, cfg.matrix_a_addr),
        (RegName.matrixB, cfg.matrix_b_addr),
        (RegName.matrixC, cfg.matrix_c_addr),
        (RegName.mDim, cfg.m_dim),
        (RegName.kDim, cfg.k_dim),
        (RegName.nDim, cfg.n_dim),
        (RegName.dataType, cfg.data_type),
        (RegName.strideA, cfg.stride_a),
        (RegName.strideB, cfg.stride_b),
        (RegName.strideC, cfg.stride_c),
        (RegName.ctrl, GEMM_CTRL_START)]) := by
  simp only [gemm_accel_start, gemm_accel_get_cycle_count]
  rw [if_neg (by simp [hinit]), if_neg (by simp [hbusy]),
    if_neg (by simp [hm, hk, hn]), if_neg (Nat.not_lt.mpr hd)]
  rfl

/-- Witness for C4: starting the 8x8x8 int8 example configuration from
an initialized idle state programs the ten registers and START. -/
theorem gemm_accel_start_success_witness :
    gemm_accel_start (some cfg8) stIdle =
      (0,
       { initialized := stIdle.initialized,
         cycleStart := (stIdle.cycleCtr + 100) % 4294967296,
         cycleCtr := (stIdle.cycleCtr + 100) % 4294967296,
         regs := { ctrl := GEMM_CTRL_START,
                   statusReg := stIdle.regs.statusReg,
                   matrixA := cfg8.matrix_a_addr,
                   matrixB := cfg8.matrix_b_addr,
                   matrixC := cfg8.matrix_c_addr,
                   mDim := cfg8.m_dim,
                   kDim := cfg8.k_dim,
                   nDim := cfg8.n_dim,
                   dataType := cfg8.data_type,
                   strideA := cfg8.stride_a,
                   strideB := cfg8.stride_b,
                   strideC := cfg8.stride_c } },
       [(RegName.matrixA, cfg8.matrix_a_addr),
        (RegName.matrixB, cfg8.matrix_b_addr),
        (RegName.matrixC, cfg8.matrix_c_addr),
        (RegName.mDim, cfg8.m_dim),
        (RegName.kDim, cfg8.k_dim),
        (RegName.nDim, cfg8.n_dim),
        (RegName.dataType, cfg8.data_type),
        (RegName.strideA, cfg8.stride_a),
        (RegName.strideB, cfg8.stride_b),
        (RegName.strideC, cfg8.stride_c),
        (RegName.ctrl, GEMM_CTRL_START)]) :=
  gemm_accel_start_success stIdle cfg8 rfl rfl
    (by decide) (by decide) (by decide) (by decide)

/-- C7: `gemm_accel_init` on an already-initialized driver returns 0
immediately, with no register write, no status read (the read cursor is
unchanged), and the driver and hardware state exactly as before. -/
theorem gemm_accel_init_idempotent (statusSeq : Nat → Nat) (fuel t : Nat)
    (st : DriverState) (h : st.initialized = true) :
    gemm_accel_init statusSeq fuel t st = some (0, t, st, []) := by
  simp [gemm_accel_init, h]

/-- Witness for C7: re-initializing an initialized driver is a no-op. -/
theorem gemm_accel_init_idempotent_witness :
    gemm_accel_init seq0 1 5 stIdle = some (0, 5, stIdle, []) :=
  gemm_accel_init_idempotent seq0 1 5 stIdle rfl

lemma pollBusy_spec (statusSeq : Nat → Nat) : ∀ (fuel i j : Nat),
    pollBusy statusSeq fuel i = some j →
      statusSeq j &&& GEMM_STATUS_BUSY = 0 ∧ i ≤ j ∧
      ∀ t, i ≤ t → t < j → statusSeq t &&& GEMM_STATUS_BUSY ≠ 0 := by
  intro fuel
  induction fuel with
  | zero => intro i j h; exact absurd h (by simp [pollBusy])
  | succ fuel ih =>
      intro i j h
      unfold pollBusy at h
      by_cases hb : statusSeq i &&& GEMM_STATUS_BUSY ≠ 0
      · rw [if_pos hb] at h
        obtain ⟨hclear, hle, hbusy⟩ := ih (i + 1) j h
        refine ⟨hclear, by omega, ?_⟩
        intro t ht1 ht2
        by_cases hti : t = i
        · subst hti; exact hb
        · exact hbusy t (by omega) ht2
      · rw [if_neg hb] at h
        obtain rfl : i = j := Option.some.inj h
        push_neg at hb
        exact ⟨hb, Nat.le_refl i, fun t ht1 ht2 => absurd (Nat.lt_of_le_of_lt ht1 ht2) (Nat.lt_irrefl i)⟩

lemma startSuccessInv (cfg : gemm_config_t)
    (st0 st1 : DriverState) (log : List (RegName × Nat))
    (h : gemm_accel_start (some cfg) st0 = (0, st1, log)) :
    st1.initialized = true ∧
    st1.cycleStart = (st0.cycleCtr + 100) % 4294967296 := by
  simp only [gemm_accel_start, gemm_accel_get_cycle_count] at h
  split_ifs at h with h1 h2 h3 h4
  · exact absurd (congrArg Prod.fst h) (by simp)
  · exact absurd (congrArg Prod.fst h) (by simp)
  · exact absurd (congrArg Prod.fst h) (by simp)
  · exact absurd (congrArg Prod.fst h) (by simp)
  · have h5 := congrArg (fun p => p.2.1) h
    simp only at h5
    rw [← h5]
    constructor
    · show st0.initialized = true
      revert h1
      cases st0.initialized <;> simp
    · rfl

/-- C3: after a successful `gemm_accel_start` (which sampled the start
cycle count), once the polling loop of `gemm_accel_wait` observes BUSY
clear, then if the subsequent status read shows no ERROR bit the call
samples the end cycle count and computes and reports
`elapsed = end - start` in 32-bit unsigned arithmetic (equal to the
exact difference whenever the counter did not wrap), returning success;
if the ERROR bit is set it returns the -1 hardware-fault failure. -/
theorem gemm_accel_wait_spec (statusSeq : Nat → Nat) (fuel : Nat)
    (st0 st1 : DriverState) (cfg : gemm_config_t)
    (log : List (RegName × Nat)) (i : Nat)
    (hstart : gemm_accel_start (some cfg) st0 = (0, st1, log))
    (hpoll : pollBusy statusSeq fuel 0 = some i) :
    st1.cycleStart = (st0.cycleCtr + 100) % 4294967296 ∧
    (statusSeq (i + 1) &&& GEMM_STATUS_ERROR = 0 →
      gemm_accel_wait statusSeq fuel st1 =
        some (0,
          some (((st1.cycleCtr + 100) % 4294967296 +
            (4294967296 - st1.cycleStart % 4294967296)) % 4294967296),
          { st1 with cycleCtr := (st1.cycleCtr + 100) % 4294967296 })) ∧
    (st1.cycleStart ≤ (st1.cycleCtr + 100) % 4294967296 →
      ((st1.cycleCtr + 100) % 4294967296 +
          (4294967296 - st1.cycleStart % 4294967296)) % 4294967296 =
        (st1.cycleCtr + 100) % 4294967296 - st1.cycleStart) ∧
    (statusSeq (i + 1) &&& GEMM_STATUS_ERROR ≠ 0 →
      gemm_accel_wait statusSeq fuel st1 = some (-1, none, st1)) := by
  obtain ⟨hinit1, hcs⟩ := startSuccessInv cfg st0 st1 log hstart
  refine ⟨hcs, ?_, ?_, ?_⟩
  · intro herr
    simp [gemm_accel_wait, hinit1, hpoll, herr, gemm_accel_get_cycle_count]
  · intro hle
    have hlt : st1.cycleStart < 4294967296 := by omega
    omega
  · intro herr
    simp [gemm_accel_wait, hinit1, hpoll, herr]

/-- Witness for C3: a full start-then-wait round trip of the example
configuration with an always-clear status stream. -/
theorem gemm_accel_wait_spec_witness :
    st1c.cycleStart = (stIdle.cycleCtr + 100) % 4294967296 ∧
    (seq0 (0 + 1) &&& GEMM_STATUS_ERROR = 0 →
      gemm_accel_wait seq0 1 st1c =
        some (0,
          some (((st1c.cycleCtr + 100) % 4294967296 +
            (4294967296 - st1c.cycleStart % 4294967296)) % 4294967296),
          { st1c with cycleCtr := (st1c.cycleCtr + 100) % 4294967296 })) ∧
    (st1c.cycleStart ≤ (st1c.cycleCtr + 100) % 4294967296 →
      ((st1c.cycleCtr + 100) % 4294967296 +
          (4294967296 - st1c.cycleStart % 4294967296)) % 4294967296 =
        (st1c.cycleCtr + 100) % 4294967296 - st1c.cycleStart) ∧
    (seq0 (0 + 1) &&& GEMM_STATUS_ERROR ≠ 0 →
      gemm_accel_wait seq0 1 st1c = some (-1, none, st1c)) :=
  gemm_accel_wait_spec seq0 1 stIdle st1c cfg8 log8 0 (by decide) (by decide)

/-- C5: whenever `gemm_accel_wait` returns, either the driver was
uninitialized (so the polling loop never ran), or the read that ended
the polling loop observed the BUSY bit clear while every earlier read
observed it set: the call never returns while the hardware still
reports Busy. -/
theorem gemm_accel_wait_not_busy (statusSeq : Nat → Nat) (fuel : Nat)
    (st : DriverState) (r : Int × Option Nat × DriverState)
    (h : gemm_accel_wait statusSeq fuel st = some r) :
    st.initialized = false ∨
    ∃ i, pollBusy statusSeq fuel 0 = some i ∧
      statusSeq i &&& GEMM_STATUS_BUSY = 0 ∧
      ∀ j < i, statusSeq j &&& GEMM_STATUS_BUSY ≠ 0 := by
  by_cases hinit : st.initialized = false
  · exact Or.inl hinit
  · right
    unfold gemm_accel_wait at h
    rw [if_neg hinit] at h
    cases hp : pollBusy statusSeq fuel 0 with
    | none => rw [hp] at h; exact absurd h (by simp)
    | some i =>
        obtain ⟨hclear, -, hbusy⟩ := pollBusy_spec statusSeq fuel 0 i hp
        exact ⟨i, rfl, hclear, fun j hj => hbusy j (Nat.zero_le j) hj⟩

/-- Witness for C5: a wait from an initialized state whose very first
status read observes BUSY clear. -/
theorem gemm_accel_wait_not_busy_witness :
    stIdle.initialized = false ∨
    ∃ i, pollBusy seq0 1 0 = some i ∧
      seq0 i &&& GEMM_STATUS_BUSY = 0 ∧
      ∀ j < i, seq0 j &&& GEMM_STATUS_BUSY ≠ 0 :=
  gemm_accel_wait_not_busy seq0 1 stIdle
    (0, some 100, { stIdle with cycleCtr := 100 }) (by decide)

lemma and_bit_eq_zero (s n : Nat) (h : s.testBit n = false) : s &&& 2 ^ n = 0 := by
  rw [Nat.and_two_pow, h]
  simp

lemma and_bit_ne_zero (s n : Nat) (h : s.testBit n = true) : s &&& 2 ^ n ≠ 0 := by
  rw [Nat.and_two_pow, h]
  simp

lemma mask_irq_testBit (i : Nat) (hi : i < 32) (h2 : i ≠ 2) :
    Nat.testBit 4294967291 i = true := by
  interval_cases i <;> first | decide | exact absurd rfl h2

lemma testBit_four (i : Nat) (h2 : i ≠ 2) : Nat.testBit 4 i = false := by
  have h4 : (4 : Nat) = 2 ^ 2 := rfl
  rw [h4]
  exact Nat.testBit_two_pow_of_ne (Ne.symm h2)

/-- C8: `gemm_accel_set_interrupt_enable` is a read-modify-write of the
control register that sets bit 2 (IRQ_EN) to the requested value and
leaves every other control-register bit, every other register, and all
driver-tracked state exactly as before. -/
theorem gemm_accel_set_interrupt_enable_frame (st : DriverState)
    (enable : Bool) (i : Nat) (hi : i < 32) :
    ((gemm_accel_set_interrupt_enable enable st).regs.ctrl.testBit 2 = enable) ∧
    (i ≠ 2 →
      (gemm_accel_set_interrupt_enable enable st).regs.ctrl.testBit i =
        st.regs.ctrl.testBit i) ∧
    (gemm_accel_set_interrupt_enable enable st).regs.statusReg = st.regs.statusReg ∧
    (gemm_accel_set_interrupt_enable enable st).regs.matrixA = st.regs.matrixA ∧
    (gemm_accel_set_interrupt_enable enable st).regs.matrixB = st.regs.matrixB ∧
    (gemm_accel_set_interrupt_enable enable st).regs.matrixC = st.regs.matrixC ∧
    (gemm_accel_set_interrupt_enable enable st).regs.mDim = st.regs.mDim ∧
    (gemm_accel_set_interrupt_enable enable st).regs.kDim = st.regs.kDim ∧
    (gemm_accel_set_interrupt_enable enable st).regs.nDim = st.regs.nDim ∧
    (gemm_accel_set_interrupt_enable enable st).regs.dataType = st.regs.dataType ∧
    (gemm_accel_set_interrupt_enable enable st).regs.strideA = st.regs.strideA ∧
    (gemm_accel_set_interrupt_enable enable st).regs.strideB = st.regs.strideB ∧
    (gemm_accel_set_interrupt_enable enable st).regs.strideC = st.regs.strideC ∧
    (gemm_accel_set_interrupt_enable enable st).initialized = st.initialized ∧
    (gemm_accel_set_interrupt_enable enable st).cycleStart = st.cycleStart ∧
    (gemm_accel_set_interrupt_enable enable st).cycleCtr = st.cycleCtr := by
  cases enable
  · refine ⟨?_, ?_, rfl, rfl, rfl, rfl, rfl, rfl, rfl, rfl, rfl, rfl, rfl, rfl, rfl, rfl⟩
    · show Nat.testBit (st.regs.ctrl &&& 4294967291) 2 = false
      rw [Nat.testBit_land]
      simp [show Nat.testBit 4294967291 2 = false from rfl]
    · intro h2
      show Nat.testBit (st.regs.ctrl &&& 4294967291) i = st.regs.ctrl.testBit i
      rw [Nat.testBit_land, mask_irq_testBit i hi h2, Bool.and_true]
  · refine ⟨?_, ?_, rfl, rfl, rfl, rfl, rfl, rfl, rfl, rfl, rfl, rfl, rfl, rfl, rfl, rfl⟩
    · show Nat.testBit (st.regs.ctrl ||| 4) 2 = true
      rw [Nat.testBit_lor]
      simp [show Nat.testBit 4 2 = true from rfl]
    · intro h2
      show Nat.testBit (st.regs.ctrl ||| 4) i = st.regs.ctrl.testBit i
      rw [Nat.testBit_lor, testBit_four i h2, Bool.or_false]

/-- Witness for C8: disabling interrupts on the post-start state (whose
control register holds the START bit) clears bit 2 and keeps bit 0. -/
theorem gemm_accel_set_interrupt_enable_frame_witness :
    ((gemm_accel_set_interrupt_enable false st1c).regs.ctrl.testBit 2 = false) ∧
    (0 ≠ 2 →
      (gemm_accel_set_interrupt_enable false st1c).regs.ctrl.testBit 0 =
        st1c.regs.ctrl.testBit 0) ∧
    (gemm_accel_set_interrupt_enable false st1c).regs.statusReg = st1c.regs.statusReg ∧
    (gemm_accel_set_interrupt_enable false st1c).regs.matrixA = st1c.regs.matrixA ∧
    (gemm_accel_set_interrupt_enable false st1c).regs.matrixB = st1c.regs.matrixB ∧
    (gemm_accel_set_interrupt_enable false st1c).regs.matrixC = st1c.regs.matrixC ∧
    (gemm_accel_set_interrupt_enable false st1c).regs.mDim = st1c.regs.mDim ∧
    (gemm_accel_set_interrupt_enable false st1c).regs.kDim = st1c.regs.kDim ∧
    (gemm_accel_set_interrupt_enable false st1c).regs.nDim = st1c.regs.nDim ∧
    (gemm_accel_set_interrupt_enable false st1c).regs.dataType = st1c.regs.dataType ∧
    (gemm_accel_set_interrupt_enable false st1c).regs.strideA = st1c.regs.strideA ∧
    (gemm_accel_set_interrupt_enable false st1c).regs.strideB = st1c.regs.strideB ∧
    (gemm_accel_set_interrupt_enable false st1c).regs.strideC = st1c.regs.strideC ∧
    (gemm_accel_set_interrupt_enable false st1c).initialized = st1c.initialized ∧
    (gemm_accel_set_interrupt_enable false st1c).cycleStart = st1c.cycleStart ∧
    (gemm_accel_set_interrupt_enable false st1c).cycleCtr = st1c.cycleCtr :=
  gemm_accel_set_interrupt_enable_frame st1c false 0 (by decide)

/-- C10: `gemm_accel_status` maps an uninitialized driver to -1 and
otherwise maps the status bits with precedence ERROR (-1) over DONE (1)
over BUSY (0) over Idle (2); an uninitialized driver and a hardware
error are therefore indistinguishable by the return value alone. -/
theorem gemm_accel_status_spec (st : DriverState) :
    (st.initialized = false → gemm_accel_status st = -1) ∧
    (st.initialized = true → st.regs.statusReg.testBit 2 = true →
      gemm_accel_status st = -1) ∧
    (st.initialized = true → st.regs.statusReg.testBit 2 = false →
      st.regs.statusReg.testBit 1 = true → gemm_accel_status st = 1) ∧
    (st.initialized = true → st.regs.statusReg.testBit 2 = false →
      st.regs.statusReg.testBit 1 = false → st.regs.statusReg.testBit 0 = true →
      gemm_accel_status st = 0) ∧
    (st.initialized = true → st.regs.statusReg.testBit 2 = false →
      st.regs.statusReg.testBit 1 = false → st.regs.statusReg.testBit 0 = false →
      gemm_accel_status st = 2) := by
  refine ⟨?_, ?_, ?_, ?_, ?_⟩
  · intro h
    simp [gemm_accel_status, h]
  · intro h hE
    have hEn : st.regs.statusReg &&& GEMM_STATUS_ERROR ≠ 0 :=
      and_bit_ne_zero st.regs.statusReg 2 hE
    simp [gemm_accel_status, h, hEn]
  · intro h hE hD
    have hEz : st.regs.statusReg &&& GEMM_STATUS_ERROR = 0 :=
      and_bit_eq_zero st.regs.statusReg 2 hE
    have hDn : st.regs.statusReg &&& GEMM_STATUS_DONE ≠ 0 :=
      and_bit_ne_zero st.regs.statusReg 1 hD
    simp [gemm_accel_status, h, hEz, hDn]
  · intro h hE hD hB
    have hEz : st.regs.statusReg &&& GEMM_STATUS_ERROR = 0 :=
      and_bit_eq_zero st.regs.statusReg 2 hE
    have hDz : st.regs.statusReg &&& GEMM_STATUS_DONE = 0 :=
      and_bit_eq_zero st.regs.statusReg 1 hD
    have hBn : st.regs.statusReg &&& GEMM_STATUS_BUSY ≠ 0 :=
      and_bit_ne_zero st.regs.statusReg 0 hB
    simp [gemm_accel_status, h, hEz, hDz, hBn]
  · intro h hE hD hB
    have hEz : st.regs.statusReg &&& GEMM_STATUS_ERROR = 0 :=
      and_bit_eq_zero st.regs.statusReg 2 hE
    have hDz : st.regs.statusReg &&& GEMM_STATUS_DONE = 0 :=
      and_bit_eq_zero st.regs.statusReg 1 hD
    have hBz : st.regs.statusReg &&& GEMM_STATUS_BUSY = 0 :=
      and_bit_eq_zero st.regs.statusReg 0 hB
    simp [gemm_accel_status, h, hEz, hDz, hBz]

/-- Witness for C10: an uninitialized driver reports -1. -/
theorem gemm_accel_status_spec_witness : gemm_accel_status stUninit = -1 :=
  (gemm_accel_status_spec stUninit).1 rfl
